import Mathlib

/-!
Shallow embedding of the `private-payroll-zama` repository's two core
contracts, `ConfidentialPayrollSystem` (ConfidentialPayrollSystem.sol) and
`PayrollToken` (PayrollToken.sol), over a value-level model of Zama's FHE
euint64 ciphertexts.

Modelling conventions:
- An `euint64` ciphertext is modelled by its 64-bit plaintext value, a `Nat`
  taken modulo 2^64 by each homomorphic operation, exactly as the FHEVM
  arithmetic wraps.
- A Solidity `revert` (failed `require` or role modifier) is an
  `Except.error`: the transaction aborts and no state change survives, which
  is the chain's rollback semantics.
- `FHE.allow` / `FHE.allowThis` decryption grants are recorded, at the value
  level, in the per-call effect record `Fx` (for the payroll system) or in
  the token state's `acl` relation (for the token, where
  `FHE.isSenderAllowed` reads it back).
- `keccak256(abi.encodePacked(...))` is modelled as an injective packaging of
  its preimage fields into a `ReportHash` structure.
- Addresses are `Nat`; `address(0)` is `0`.
-/

namespace Payroll

/-- 2^64 (written as a literal), the modulus of the euint64 ciphertext
space. -/
def M64 : Nat := 18446744073709551616

/-- FHE.add on euint64: wrapping addition modulo 2^64. -/
def fheAdd (a b : Nat) : Nat := (a + b) % M64

/-- FHE.sub on euint64: wrapping subtraction modulo 2^64. -/
def fheSub (a b : Nat) : Nat := (a + (M64 - b % M64)) % M64

/-- FHE.mul on euint64: wrapping multiplication modulo 2^64. -/
def fheMul (a b : Nat) : Nat := a * b % M64

/-- FHE.le on euint64: encrypted less-or-equal comparison. -/
def fheLe (a b : Nat) : Bool := a ≤ b

/-- FHE.gt on euint64: encrypted strict greater-than comparison. -/
def fheGt (a b : Nat) : Bool := b < a

/-- FHE.select: homomorphic conditional selection on an encrypted bool. -/
def fheSelect (c : Bool) (a b : Nat) : Nat := if c then a else b

/-- The roles declared by ConfidentialPayrollSystem (DEFAULT_ADMIN_ROLE from
OpenZeppelin AccessControl plus the three keccak-derived role ids). -/
inductive Role where
  | defaultAdmin
  | employer
  | payrollAdmin
  | auditor
deriving DecidableEq, Repr

/-- The `EmployeeData` struct of ConfidentialPayrollSystem. Encrypted fields
hold euint64 plaintext values. -/
structure EmployeeData where
  encryptedSalary : Nat
  encryptedBonus : Nat
  encryptedTaxRate : Nat
  encryptedYTDEarnings : Nat
  encryptedYTDTax : Nat
  lastPaymentTimestamp : Nat
  isActive : Bool
deriving DecidableEq, Repr

/-- Solidity default value of an `EmployeeData` storage slot. -/
def EmployeeData.zero : EmployeeData :=
  { encryptedSalary := 0, encryptedBonus := 0, encryptedTaxRate := 0,
    encryptedYTDEarnings := 0, encryptedYTDTax := 0,
    lastPaymentTimestamp := 0, isActive := false }

/-- The `PayrollConfig` struct of ConfidentialPayrollSystem. -/
structure PayrollConfig where
  payPeriodDays : Nat
  paymentToken : Nat
  treasuryAddress : Nat
  encryptedTotalBudget : Nat
deriving DecidableEq, Repr

/-- `keccak256(abi.encodePacked(currentPayPeriod, totalEmployees,
block.timestamp))`, modelled as the injective package of its preimage. -/
structure ReportHash where
  period : Nat
  employeeCount : Nat
  timestamp : Nat
deriving DecidableEq, Repr

/-- The events declared by ConfidentialPayrollSystem (contract lines 43-47).
Note there is no SalaryUpdated event in the contract. -/
inductive Event where
  | employeeAdded (employee timestamp : Nat)
  | payrollProcessed (payPeriod employeeCount : Nat)
  | bonusDistributed (employee timestamp : Nat)
  | taxWithheld (payPeriod taxAuthority : Nat)
  | complianceReportGenerated (period : Nat) (reportHash : ReportHash)
deriving DecidableEq, Repr

/-- Revert reasons of ConfidentialPayrollSystem: the AccessControl role
modifier failure and the two `require` messages. -/
inductive PayrollError where
  | unauthorized (role : Role) (account : Nat)
  | employeeAlreadyExists
  | employeeNotFound
deriving DecidableEq, Repr

/-- Full storage of a ConfidentialPayrollSystem instance. `eventLog` is the
chain's append-only log of this contract's events. The unused
`payrollBatches` mapping of the source is omitted (it is never read or
written by any function). -/
structure PayrollState where
  roles : Role → Nat → Bool
  employees : Nat → EmployeeData
  paymentHistory : Nat → Nat → Nat
  config : PayrollConfig
  currentPayPeriod : Nat
  totalEmployees : Nat
  eventLog : List Event

/-- OpenZeppelin AccessControl's hasRole view. -/
def PayrollState.hasRole (s : PayrollState) (r : Role) (a : Nat) : Bool :=
  s.roles r a

/-- Point update of the employees mapping. -/
def updEmp (m : Nat → EmployeeData) (k : Nat) (v : EmployeeData) :
    Nat → EmployeeData :=
  fun a => if a = k then v else m a

/-- Point update of the two-level paymentHistory mapping. -/
def updHist (m : Nat → Nat → Nat) (k p v : Nat) : Nat → Nat → Nat :=
  fun a q => if a = k ∧ q = p then v else m a q

/-- Point update of the roles mapping. -/
def updRole (m : Role → Nat → Bool) (r : Role) (a : Nat) (v : Bool) :
    Role → Nat → Bool :=
  fun r0 a0 => if r0 = r ∧ a0 = a then v else m r0 a0

/-- The constructor of ConfidentialPayrollSystem: grants DEFAULT_ADMIN_ROLE,
EMPLOYER_ROLE and PAYROLL_ADMIN_ROLE to the deployer and initialises the
config with an encrypted zero budget. -/
def initState (deployer paymentToken treasury payPeriodDays : Nat) :
    PayrollState :=
  { roles := fun r a =>
      decide (a = deployer ∧ (r = Role.defaultAdmin ∨ r = Role.employer ∨
        r = Role.payrollAdmin))
    employees := fun _ => EmployeeData.zero
    paymentHistory := fun _ _ => 0
    config := { payPeriodDays := payPeriodDays, paymentToken := paymentToken,
                treasuryAddress := treasury, encryptedTotalBudget := 0 }
    currentPayPeriod := 0
    totalEmployees := 0
    eventLog := [] }

/-- Per-call effect record: the FHE.allow grants (value, grantee), the
FHE.allowThis grants, the paymentHistory writes (employee, period, netPay)
and the `_transferConfidentialPayment` calls (employee, amount) a call
performs. -/
structure Fx where
  grants : List (Nat × Nat)
  grantsThis : List Nat
  payWrites : List (Nat × Nat × Nat)
  payTransfers : List (Nat × Nat)
deriving DecidableEq, Repr

/-- The empty effect record. -/
def Fx.none : Fx :=
  { grants := [], grantsThis := [], payWrites := [], payTransfers := [] }

/-- `addEmployee(employee, encryptedSalary, encryptedTaxRate, inputProof)`:
onlyRole(PAYROLL_ADMIN_ROLE); requires the employee not already active;
stores the record with zero bonus and zero YTD accumulators, adds the salary
into the encrypted total budget, allows the contract on salary and tax rate,
allows the employee on their salary, increments totalEmployees and emits
EmployeeAdded. External encrypted inputs carry 64-bit plaintexts, hence the
reduction modulo 2^64 at entry. -/
def addEmployee (s : PayrollState) (sender now employee salaryIn taxRateIn :
    Nat) : Except PayrollError (PayrollState × Fx) :=
  if s.hasRole Role.payrollAdmin sender then
    if (s.employees employee).isActive then
      Except.error PayrollError.employeeAlreadyExists
    else
      let salary := salaryIn % M64
      let taxRate := taxRateIn % M64
      let emp : EmployeeData :=
        { encryptedSalary := salary, encryptedBonus := 0,
          encryptedTaxRate := taxRate, encryptedYTDEarnings := 0,
          encryptedYTDTax := 0, lastPaymentTimestamp := now,
          isActive := true }
      let s2 : PayrollState :=
        { s with
          employees := updEmp s.employees employee emp
          config := { s.config with
            encryptedTotalBudget :=
              fheAdd s.config.encryptedTotalBudget salary }
          totalEmployees := s.totalEmployees + 1
          eventLog := s.eventLog ++ [Event.employeeAdded employee now] }
      Except.ok (s2,
        { grants := [(salary, employee)], grantsThis := [salary, taxRate],
          payWrites := [], payTransfers := [] })
  else Except.error (PayrollError.unauthorized Role.payrollAdmin sender)

/-- The `getEmployeeByIndex` helper of the source, verbatim: a placeholder
that returns address(0) for every index. -/
def getEmployeeByIndex (_ : Nat) : Nat := 0

/-- One iteration of the processPayroll loop body, acting on the accumulated
(state, effects, processedCount). Mirrors the source order: skip inactive,
grossPay = salary + bonus, taxAmount = grossPay * taxRate, netPay =
grossPay - taxAmount, YTD updates, paymentHistory write at the current
period, `_transferConfidentialPayment` (which only performs
FHE.allow(netPay, paymentToken) and moves no tokens), bonus reset to zero,
timestamp update. -/
def payStep (now : Nat) (acc : PayrollState × Fx × Nat) (i : Nat) :
    PayrollState × Fx × Nat :=
  let s := acc.1
  let fx := acc.2.1
  let cnt := acc.2.2
  let addr := getEmployeeByIndex i
  let emp := s.employees addr
  if emp.isActive then
    let grossPay := fheAdd emp.encryptedSalary emp.encryptedBonus
    let taxAmount := fheMul grossPay emp.encryptedTaxRate
    let netPay := fheSub grossPay taxAmount
    let emp2 : EmployeeData :=
      { emp with
        encryptedYTDEarnings := fheAdd emp.encryptedYTDEarnings grossPay
        encryptedYTDTax := fheAdd emp.encryptedYTDTax taxAmount
        encryptedBonus := 0
        lastPaymentTimestamp := now }
    let s2 : PayrollState :=
      { s with
        employees := updEmp s.employees addr emp2
        paymentHistory :=
          updHist s.paymentHistory addr s.currentPayPeriod netPay }
    let fx2 : Fx :=
      { fx with
        grants := fx.grants ++ [(netPay, s.config.paymentToken)]
        payWrites := fx.payWrites ++ [(addr, s.currentPayPeriod, netPay)]
        payTransfers := fx.payTransfers ++ [(addr, netPay)] }
    (s2, fx2, cnt + 1)
  else acc

/-- `processPayroll()`: onlyRole(PAYROLL_ADMIN_ROLE); increments
currentPayPeriod, then iterates indices 0..totalEmployees-1 through
`getEmployeeByIndex` applying the loop body, and emits
PayrollProcessed(currentPayPeriod, processedCount). -/
def processPayroll (s : PayrollState) (sender now : Nat) :
    Except PayrollError (PayrollState × Fx) :=
  if s.hasRole Role.payrollAdmin sender then
    let s1 : PayrollState := { s with currentPayPeriod := s.currentPayPeriod + 1 }
    let r := (List.range s1.totalEmployees).foldl (payStep now)
      (s1, Fx.none, 0)
    let s2 := r.1
    Except.ok
      ({ s2 with eventLog :=
          s2.eventLog ++ [Event.payrollProcessed s1.currentPayPeriod r.2.2] },
        r.2.1)
  else Except.error (PayrollError.unauthorized Role.payrollAdmin sender)

/-- `distributeBonus(employee, encryptedBonus, inputProof)`:
onlyRole(EMPLOYER_ROLE); requires an active employee; homomorphically adds
the bonus into the stored bonus, allows the contract on the new bonus and
emits BonusDistributed. -/
def distributeBonus (s : PayrollState) (sender now employee bonusIn : Nat) :
    Except PayrollError (PayrollState × Fx) :=
  if s.hasRole Role.employer sender then
    if (s.employees employee).isActive then
      let bonus := bonusIn % M64
      let emp := s.employees employee
      let newBonus := fheAdd emp.encryptedBonus bonus
      let s2 : PayrollState :=
        { s with
          employees := updEmp s.employees employee
            { emp with encryptedBonus := newBonus }
          eventLog := s.eventLog ++ [Event.bonusDistributed employee now] }
      Except.ok (s2,
        { grants := [], grantsThis := [newBonus], payWrites := [],
          payTransfers := [] })
    else Except.error PayrollError.employeeNotFound
  else Except.error (PayrollError.unauthorized Role.employer sender)

/-- One iteration of the generateComplianceReport aggregation loop: for the
address produced by `getEmployeeByIndex`, if active, homomorphically adds its
YTD earnings and YTD tax onto the running (totalPaid, totalTax). -/
def reportStep (s : PayrollState) (acc : Nat × Nat) (i : Nat) : Nat × Nat :=
  let emp := s.employees (getEmployeeByIndex i)
  if emp.isActive then
    (fheAdd acc.1 emp.encryptedYTDEarnings, fheAdd acc.2 emp.encryptedYTDTax)
  else acc

/-- `generateComplianceReport()`: onlyRole(AUDITOR_ROLE); aggregates YTD
values over indices 0..totalEmployees-1 through `getEmployeeByIndex`, builds
the report hash from (currentPayPeriod, totalEmployees, block.timestamp),
allows the caller on the two aggregates only, and emits
ComplianceReportGenerated. -/
def generateComplianceReport (s : PayrollState) (sender now : Nat) :
    Except PayrollError (PayrollState × Fx × ReportHash) :=
  if s.hasRole Role.auditor sender then
    let r := (List.range s.totalEmployees).foldl (reportStep s) (0, 0)
    let h : ReportHash :=
      { period := s.currentPayPeriod, employeeCount := s.totalEmployees,
        timestamp := now }
    Except.ok
      ({ s with eventLog :=
          s.eventLog ++ [Event.complianceReportGenerated s.currentPayPeriod h] },
        { grants := [(r.1, sender), (r.2, sender)], grantsThis := [],
          payWrites := [], payTransfers := [] },
        h)
  else Except.error (PayrollError.unauthorized Role.auditor sender)

/-- `updateSalary(employee, newEncryptedSalary, inputProof)`:
onlyRole(PAYROLL_ADMIN_ROLE); requires an active employee; subtracts the old
salary from the encrypted budget then adds the new one, stores the new
salary, allows the contract and the employee on it. Emits no event. -/
def updateSalary (s : PayrollState) (sender employee newSalaryIn : Nat) :
    Except PayrollError (PayrollState × Fx) :=
  if s.hasRole Role.payrollAdmin sender then
    if (s.employees employee).isActive then
      let oldSalary := (s.employees employee).encryptedSalary
      let newSalary := newSalaryIn % M64
      let b1 := fheSub s.config.encryptedTotalBudget oldSalary
      let b2 := fheAdd b1 newSalary
      let s2 : PayrollState :=
        { s with
          employees := updEmp s.employees employee
            { s.employees employee with encryptedSalary := newSalary }
          config := { s.config with encryptedTotalBudget := b2 } }
      Except.ok (s2,
        { grants := [(newSalary, employee)], grantsThis := [newSalary],
          payWrites := [], payTransfers := [] })
    else Except.error PayrollError.employeeNotFound
  else Except.error (PayrollError.unauthorized Role.payrollAdmin sender)

/-- OpenZeppelin AccessControl `grantRole`: only the role's admin (here
DEFAULT_ADMIN_ROLE for every role, the default) may grant. -/
def grantRole (s : PayrollState) (sender : Nat) (r : Role) (account : Nat) :
    Except PayrollError PayrollState :=
  if s.hasRole Role.defaultAdmin sender then
    Except.ok { s with roles := updRole s.roles r account true }
  else Except.error (PayrollError.unauthorized Role.defaultAdmin sender)

/-- OpenZeppelin AccessControl `revokeRole`. -/
def revokeRole (s : PayrollState) (sender : Nat) (r : Role) (account : Nat) :
    Except PayrollError PayrollState :=
  if s.hasRole Role.defaultAdmin sender then
    Except.ok { s with roles := updRole s.roles r account false }
  else Except.error (PayrollError.unauthorized Role.defaultAdmin sender)

/-- `isEmployee(account)`: the stored active flag. -/
def isEmployee (s : PayrollState) (account : Nat) : Bool :=
  (s.employees account).isActive

/-- Projection helpers for concrete evaluation of call results. -/
def okState (r : Except PayrollError (PayrollState × Fx)) :
    Option PayrollState :=
  match r with
  | Except.ok p => some p.1
  | Except.error _ => none

/-- Effect-record projection of a call result. -/
def okFx (r : Except PayrollError (PayrollState × Fx)) : Option Fx :=
  match r with
  | Except.ok p => some p.2
  | Except.error _ => none

/-- Sum of the net amounts a processPayroll call wrote to paymentHistory. -/
def payWritesTotal (fx : Fx) : Nat :=
  (fx.payWrites.map (fun w => w.2.2)).sum

/-- Sum of the YTD earnings of the active employees among a given list of
addresses: the quantity the spec says a compliance report aggregates. -/
def ytdSumOver (s : PayrollState) (addrs : List Nat) : Nat :=
  (addrs.map (fun a =>
    if (s.employees a).isActive then (s.employees a).encryptedYTDEarnings
    else 0)).sum

end Payroll

namespace Token

open Payroll

/-- Revert reasons of PayrollToken: the onlyPayrollManager modifier and the
two FHE.isSenderAllowed requires of processPayrollPayment, the array length
require of batchProcessPayroll, and the Ownable check. -/
inductive TokenError where
  | notPayrollManager
  | grossPayNotAllowed
  | taxAmountNotAllowed
  | arrayLengthMismatch
  | notOwner
deriving DecidableEq, Repr

/-- Storage of a PayrollToken instance: confidential balances and the
payroll-specific mappings. `acl` is the value-level model of the FHE access
control list: `acl a v` says account `a` is allowed on a ciphertext of value
`v` (read by FHE.isSenderAllowed, written by FHE.allow). -/
structure TokenState where
  balances : Nat → Nat
  payrollManagers : Nat → Bool
  pendingWithholdings : Nat → Nat
  taxAuthority : Nat
  owner : Nat
  acl : Nat → Nat → Bool

/-- Point update of a balances-style mapping. -/
def setBal (m : Nat → Nat) (k v : Nat) : Nat → Nat :=
  fun a => if a = k then v else m a

/-- The `_update(from, to, amount)` primitive of the OpenZeppelin
ConfidentialFungibleToken base (out of this repository; the spec treats the
token base as an external collaborator with a standard confidential-transfer
model): moves `amount` from `src` to `dst` when it does not exceed the
source balance, else moves zero, all arithmetic wrapping on euint64. -/
def tokenUpdate (ts : TokenState) (src dst amount : Nat) : TokenState :=
  let transferred := fheSelect (fheLe amount (ts.balances src)) amount 0
  let b1 := setBal ts.balances src (fheSub (ts.balances src) transferred)
  let b2 := setBal b1 dst (fheAdd (b1 dst) transferred)
  { ts with balances := b2 }

/-- `processPayrollPayment(employee, grossPay, taxAmount)`:
onlyPayrollManager; requires the sender allowed on both ciphertexts;
netPay = grossPay - taxAmount; canTransfer = grossPay <= balance(sender);
actualTransfer = select(canTransfer, netPay, 0); `_update` by
actualTransfer; adds taxAmount onto pendingWithholdings[taxAuthority];
allows the employee on their balance. Also returns the selected transfer
amount for observation. -/
def processPayrollPayment (ts : TokenState)
    (sender employee grossPay taxAmount : Nat) :
    Except TokenError (TokenState × Nat) :=
  if ts.payrollManagers sender then
    if ts.acl sender grossPay then
      if ts.acl sender taxAmount then
        let netPay := fheSub grossPay taxAmount
        let canTransfer := fheLe grossPay (ts.balances sender)
        let actualTransfer := fheSelect canTransfer netPay 0
        let ts1 := tokenUpdate ts sender employee actualTransfer
        let ts2 : TokenState :=
          { ts1 with pendingWithholdings :=
              (setBal ts1.pendingWithholdings ts1.taxAuthority
                (fheAdd (ts1.pendingWithholdings ts1.taxAuthority)
                  taxAmount)) }
        let ts3 : TokenState :=
          { ts2 with acl := fun a v =>
              if a = employee ∧ v = ts2.balances employee then true
              else ts2.acl a v }
        Except.ok (ts3, actualTransfer)
      else Except.error TokenError.taxAmountNotAllowed
    else Except.error TokenError.grossPayNotAllowed
  else Except.error TokenError.notPayrollManager

/-- `batchProcessPayroll(employees, grossPayments, taxAmounts)`:
onlyPayrollManager; requires equal array lengths; then calls
processPayrollPayment per entry, any inner revert aborting the whole call. -/
def batchProcessPayroll (ts : TokenState) (sender : Nat)
    (emps grosses taxes : List Nat) : Except TokenError TokenState :=
  if ts.payrollManagers sender then
    if emps.length = grosses.length ∧ emps.length = taxes.length then
      (emps.zip (grosses.zip taxes)).foldlM
        (fun acc e =>
          (processPayrollPayment acc sender e.1 e.2.1 e.2.2).map Prod.fst)
        ts
    else Except.error TokenError.arrayLengthMismatch
  else Except.error TokenError.notPayrollManager

/-- `remitTaxWithholdings()`: onlyPayrollManager; remittance =
select(pending > 0, pending, 0); `_update` to the tax authority; resets
pendingWithholdings[taxAuthority] to zero; allows the authority on its
balance. -/
def remitTaxWithholdings (ts : TokenState) (sender : Nat) :
    Except TokenError TokenState :=
  if ts.payrollManagers sender then
    let totalTax := ts.pendingWithholdings ts.taxAuthority
    let hasTax := fheGt totalTax 0
    let remittance := fheSelect hasTax totalTax 0
    let ts1 := tokenUpdate ts sender ts.taxAuthority remittance
    let ts2 : TokenState :=
      { ts1 with pendingWithholdings :=
          (setBal ts1.pendingWithholdings ts1.taxAuthority 0) }
    let ts3 : TokenState :=
      { ts2 with acl := fun a v =>
          if a = ts2.taxAuthority ∧ v = ts2.balances ts2.taxAuthority then
            true
          else ts2.acl a v }
    Except.ok ts3
  else Except.error TokenError.notPayrollManager

/-- Result-state projection for token calls. -/
def okTs (r : Except TokenError (TokenState × Nat)) : Option TokenState :=
  match r with
  | Except.ok p => some p.1
  | Except.error _ => none

/-- Selected-transfer-amount projection for token calls. -/
def okTr (r : Except TokenError (TokenState × Nat)) : Option Nat :=
  match r with
  | Except.ok p => some p.2
  | Except.error _ => none

end Token

namespace Payroll

/-! Concrete scenario states used to evaluate the contract functions on
small inputs. Deployer and payroll admin is address 0 (which also receives
EMPLOYER_ROLE and DEFAULT_ADMIN_ROLE in the constructor); the payment token
lives at address 77, the treasury at address 88, the pay period is 14 days. -/

/-- Freshly deployed ConfidentialPayrollSystem. -/
def s0 : PayrollState := initState 0 77 88 14

/-- After addEmployee(address(0), salary 1, taxRate 0): the zero address is
registered as an active employee (nothing in the contract forbids it). -/
def sA : PayrollState := (okState (addEmployee s0 0 100 0 1 0)).getD s0

/-- After further addEmployee(address(1), salary 1, taxRate 0). -/
def sB : PayrollState := (okState (addEmployee sA 0 100 1 1 0)).getD s0

/-- After addEmployee(address(1), salary 5000000, taxRate 20) on the fresh
contract: the spec's example scenario ($50,000 in cents, 20 percent). -/
def sC2 : PayrollState :=
  (okState (addEmployee s0 0 100 1 5000000 20)).getD s0

/-- Result-state projection for generateComplianceReport. -/
def okStateR (r : Except PayrollError (PayrollState × Fx × ReportHash)) :
    Option PayrollState :=
  match r with
  | Except.ok p => some p.1
  | Except.error _ => none

/-- Effect-record projection for generateComplianceReport. -/
def okFxR (r : Except PayrollError (PayrollState × Fx × ReportHash)) :
    Option Fx :=
  match r with
  | Except.ok p => some p.2.1
  | Except.error _ => none

/-- Result-state projection for the role-management calls. -/
def okStateG (r : Except PayrollError PayrollState) : Option PayrollState :=
  match r with
  | Except.ok p => some p
  | Except.error _ => none

/-- After processPayroll on `sB`: address 0 was processed twice (once per
loop index, both resolving to address 0 through the stub). -/
def sP : PayrollState := (okState (processPayroll sB 0 200)).getD s0

/-- After granting AUDITOR_ROLE to address 9 on `sP`. -/
def sAud : PayrollState := (okStateG (grantRole sP 0 Role.auditor 9)).getD s0

/-- A concrete PayrollToken state: manager at address 10 holding balance 50,
employee at address 20 holding balance 20, tax authority at address 99,
owner at address 7; the manager is sender-allowed on ciphertexts of values
100 and 30. -/
def ts1 : Token.TokenState :=
  { balances := fun a => if a = 10 then 50 else if a = 20 then 20 else 0
    payrollManagers := fun a => decide (a = 10)
    pendingWithholdings := fun _ => 0
    taxAuthority := 99
    owner := 7
    acl := fun a v => decide (a = 10 ∧ (v = 100 ∨ v = 30)) }

/-- One successful transaction against a ConfidentialPayrollSystem state:
any of the contract's mutating entry points (including the inherited
AccessControl role management) executed by some caller with some
arguments. -/
inductive Step (s : PayrollState) : PayrollState → Prop where
  | add (sender now e x y : Nat) (s' : PayrollState) (fx : Fx)
      (h : addEmployee s sender now e x y = Except.ok (s', fx)) : Step s s'
  | process (sender now : Nat) (s' : PayrollState) (fx : Fx)
      (h : processPayroll s sender now = Except.ok (s', fx)) : Step s s'
  | bonus (sender now e x : Nat) (s' : PayrollState) (fx : Fx)
      (h : distributeBonus s sender now e x = Except.ok (s', fx)) :
      Step s s'
  | salary (sender e x : Nat) (s' : PayrollState) (fx : Fx)
      (h : updateSalary s sender e x = Except.ok (s', fx)) : Step s s'
  | report (sender now : Nat) (s' : PayrollState) (fx : Fx)
      (rh : ReportHash)
      (h : generateComplianceReport s sender now = Except.ok (s', fx, rh)) :
      Step s s'
  | roleGrant (sender : Nat) (r : Role) (account : Nat) (s' : PayrollState)
      (h : grantRole s sender r account = Except.ok s') : Step s s'
  | roleRevoke (sender : Nat) (r : Role) (account : Nat)
      (s' : PayrollState)
      (h : revokeRole s sender r account = Except.ok s') : Step s s'

/-- Reachability: any finite sequence of successful transactions. -/
abbrev Reachable : PayrollState → PayrollState → Prop :=
  Relation.ReflTransGen Step

/-! Frame lemmas for the processPayroll loop body: one iteration never
touches the config, the event log, the roles, the period counter or the
employee head count, and never deactivates an active employee. -/

theorem payStep_frame (now : Nat) (acc : PayrollState × Fx × Nat) (i : Nat) :
    ((payStep now acc i).1).config = acc.1.config ∧
    ((payStep now acc i).1).eventLog = acc.1.eventLog ∧
    ((payStep now acc i).1).roles = acc.1.roles ∧
    ((payStep now acc i).1).currentPayPeriod = acc.1.currentPayPeriod ∧
    ((payStep now acc i).1).totalEmployees = acc.1.totalEmployees ∧
    ∀ a, (acc.1.employees a).isActive = true →
      (((payStep now acc i).1).employees a).isActive = true := by
  unfold payStep
  by_cases h : (acc.1.employees (getEmployeeByIndex i)).isActive
  · refine ⟨by simp [h], by simp [h], by simp [h], by simp [h], by simp [h],
      ?_⟩
    intro a ha
    by_cases hae : a = getEmployeeByIndex i
    · subst hae
      simp [h, updEmp]
    · simp [h, updEmp, hae, ha]
  · refine ⟨by simp [h], by simp [h], by simp [h], by simp [h], by simp [h],
      fun a ha => by simp [h, ha]⟩

theorem foldl_payStep_frame (now : Nat) (l : List Nat)
    (acc : PayrollState × Fx × Nat) :
    ((l.foldl (payStep now) acc).1).config = acc.1.config ∧
    ((l.foldl (payStep now) acc).1).eventLog = acc.1.eventLog ∧
    ((l.foldl (payStep now) acc).1).roles = acc.1.roles ∧
    ((l.foldl (payStep now) acc).1).currentPayPeriod =
      acc.1.currentPayPeriod ∧
    ((l.foldl (payStep now) acc).1).totalEmployees = acc.1.totalEmployees ∧
    ∀ a, (acc.1.employees a).isActive = true →
      (((l.foldl (payStep now) acc).1).employees a).isActive = true := by
  induction l generalizing acc with
  | nil => exact ⟨rfl, rfl, rfl, rfl, rfl, fun a ha => ha⟩
  | cons i t ih =>
    rw [List.foldl_cons]
    obtain ⟨c1, c2, c3, c4, c5, c6⟩ := ih (payStep now acc i)
    obtain ⟨d1, d2, d3, d4, d5, d6⟩ := payStep_frame now acc i
    refine ⟨c1.trans d1, c2.trans d2, c3.trans d3, c4.trans d4,
      c5.trans d5, fun a ha => c6 a (d6 a ha)⟩

/-- C1 counterexample. The claim says processPayroll debits
encryptedTotalBudget by the total net pay it disburses. In the reachable
state `sA` (one active employee, salary 1, tax rate 0, budget 1), the call
writes net payments totalling 1 for the new period while the budget is
debited by 0, and 1 is not 0: the conservation equality fails on the code. -/
theorem conservation_counterexample :
    (okFx (processPayroll sA 0 200)).map payWritesTotal = some 1 ∧
    (okState (processPayroll sA 0 200)).map
      (fun s => sA.config.encryptedTotalBudget -
        s.config.encryptedTotalBudget) = some 0 ∧
    (1 : Nat) ≠ 0 := by decide

/-- C1 amended. processPayroll never touches the encrypted total budget: a
successful call leaves config.encryptedTotalBudget unchanged, so the amount
debited from the budget during a pay period is zero, and the claimed
conservation holds only when the total disbursed net pay is itself zero. -/
theorem processPayroll_preserves_budget (s s' : PayrollState) (fx : Fx)
    (sender now : Nat)
    (h : processPayroll s sender now = Except.ok (s', fx)) :
    s'.config.encryptedTotalBudget = s.config.encryptedTotalBudget := by
  unfold processPayroll at h
  by_cases hr : s.hasRole Role.payrollAdmin sender
  · simp only [hr, if_true, Except.ok.injEq, Prod.mk.injEq] at h
    obtain ⟨h1, _⟩ := h
    subst h1
    exact congrArg PayrollConfig.encryptedTotalBudget
      (foldl_payStep_frame now (List.range s.totalEmployees)
        ({ s with currentPayPeriod := s.currentPayPeriod + 1 },
          Fx.none, 0)).1
  · simp [hr] at h

/-- C1 witness: the amended theorem applied to the concrete call
processPayroll on `sA` by the deployer. -/
theorem processPayroll_preserves_budget_witness :
    ((okState (processPayroll sA 0 200)).getD s0).config.encryptedTotalBudget
      = sA.config.encryptedTotalBudget :=
  processPayroll_preserves_budget sA
    ((okState (processPayroll sA 0 200)).getD s0)
    ((okFx (processPayroll sA 0 200)).getD Fx.none) 0 200 rfl

/-- C2. Code bug: in the spec's example scenario (employee at address 1,
encrypted salary 5000000 cents, encrypted tax rate 20, zero bonus) a
processPayroll call processes nobody: the getEmployeeByIndex placeholder
returns address 0 for every index, so the employee's payment-history entry
for period 1 stays 0, their YTD earnings stay 0 and no payment is written at
all; moreover the contract's own formula tax = grossPay * taxRate (with no
division by 100) makes the net pay wrap to 2^64 - 95000000 =
18446744073614551616, not the 4000000 cents the spec requires. -/
theorem example_scenario_divergence :
    (okState (processPayroll sC2 0 200)).map
      (fun s => s.paymentHistory 1 1) = some 0 ∧
    (okState (processPayroll sC2 0 200)).map
      (fun s => (s.employees 1).encryptedYTDEarnings) = some 0 ∧
    (okFx (processPayroll sC2 0 200)).map Fx.payWrites = some [] ∧
    fheSub (fheAdd 5000000 0) (fheMul (fheAdd 5000000 0) 20) =
      18446744073614551616 ∧
    (18446744073614551616 : Nat) ≠ 4000000 := by decide

/-- C4. Code bug: double payment within a single pay period is reachable.
In state `sB` (employees at addresses 0 and 1, reached by two addEmployee
calls), one processPayroll call resolves both loop indices to address 0
through the getEmployeeByIndex placeholder and, within the same pay period
1, performs two net-pay transfers and two payment-history writes for
employee 0 (accruing its YTD twice). -/
theorem double_payment_reachable :
    (okFx (processPayroll sB 0 200)).map Fx.payTransfers =
      some [(0, 1), (0, 1)] ∧
    (okFx (processPayroll sB 0 200)).map Fx.payWrites =
      some [(0, 1, 1), (0, 1, 1)] ∧
    (okState (processPayroll sB 0 200)).map
      (fun s => (s.employees 0).encryptedYTDEarnings) = some 2 := by decide

/-- C8 counterexample. The claim says every mutating call appends its
corresponding event, in particular that updateSalary emits a SalaryUpdated
event. A successful updateSalary call on `sA` leaves the event log exactly
as it was (the contract declares no SalaryUpdated event and updateSalary
emits nothing). -/
theorem updateSalary_no_event_counterexample :
    (okState (updateSalary sA 0 0 5)).map PayrollState.eventLog =
      some sA.eventLog ∧
    sA.eventLog = [Event.employeeAdded 0 100] := by decide

/-- C8 amended. The event log is append-only and per-operation exact:
addEmployee appends exactly one EmployeeAdded entry, distributeBonus exactly
one BonusDistributed entry, processPayroll exactly one PayrollProcessed
entry for the new period, generateComplianceReport exactly one
ComplianceReportGenerated entry carrying the returned report hash — and
updateSalary appends nothing at all (the contract has no SalaryUpdated
event). -/
theorem eventLog_per_operation (s s' : PayrollState) (fx : Fx)
    (sender now e x y : Nat) :
    (addEmployee s sender now e x y = Except.ok (s', fx) →
      s'.eventLog = s.eventLog ++ [Event.employeeAdded e now]) ∧
    (updateSalary s sender e x = Except.ok (s', fx) →
      s'.eventLog = s.eventLog) ∧
    (distributeBonus s sender now e x = Except.ok (s', fx) →
      s'.eventLog = s.eventLog ++ [Event.bonusDistributed e now]) ∧
    (processPayroll s sender now = Except.ok (s', fx) →
      ∃ cnt, s'.eventLog = s.eventLog ++
        [Event.payrollProcessed (s.currentPayPeriod + 1) cnt]) ∧
    (∀ fx2 rh, generateComplianceReport s sender now =
        Except.ok (s', fx2, rh) →
      s'.eventLog = s.eventLog ++
        [Event.complianceReportGenerated s.currentPayPeriod rh]) := by
  refine ⟨?_, ?_, ?_, ?_, ?_⟩
  · intro h
    by_cases hr : s.hasRole Role.payrollAdmin sender
    · by_cases ha : (s.employees e).isActive
      · simp [addEmployee, hr, ha] at h
      · simp [addEmployee, hr, ha] at h
        obtain ⟨h1, _⟩ := h
        subst h1
        simp
    · simp [addEmployee, hr] at h
  · intro h
    by_cases hr : s.hasRole Role.payrollAdmin sender
    · by_cases ha : (s.employees e).isActive
      · simp [updateSalary, hr, ha] at h
        obtain ⟨h1, _⟩ := h
        subst h1
        simp
      · simp [updateSalary, hr, ha] at h
    · simp [updateSalary, hr] at h
  · intro h
    by_cases hr : s.hasRole Role.employer sender
    · by_cases ha : (s.employees e).isActive
      · simp [distributeBonus, hr, ha] at h
        obtain ⟨h1, _⟩ := h
        subst h1
        simp
      · simp [distributeBonus, hr, ha] at h
    · simp [distributeBonus, hr] at h
  · intro h
    by_cases hr : s.hasRole Role.payrollAdmin sender
    · simp only [processPayroll, hr, if_true, Except.ok.injEq,
        Prod.mk.injEq] at h
      obtain ⟨h1, _⟩ := h
      subst h1
      refine ⟨((List.range s.totalEmployees).foldl (payStep now)
        ({ s with currentPayPeriod := s.currentPayPeriod + 1 },
          Fx.none, 0)).2.2, ?_⟩
      have hf := (foldl_payStep_frame now (List.range s.totalEmployees)
        ({ s with currentPayPeriod := s.currentPayPeriod + 1 },
          Fx.none, 0)).2.1
      simp only at hf ⊢
      rw [hf]
    · simp [processPayroll, hr] at h
  · intro fx2 rh h
    by_cases hr : s.hasRole Role.auditor sender
    · simp [generateComplianceReport, hr] at h
      obtain ⟨h1, _, h3⟩ := h
      subst h1
      subst h3
      simp
    · simp [generateComplianceReport, hr] at h

/-- C8 witness: the amended theorem's addEmployee conjunct applied to the
concrete call that produced `sA` from the fresh contract. -/
theorem eventLog_per_operation_witness :
    sA.eventLog = s0.eventLog ++ [Event.employeeAdded 0 100] :=
  (eventLog_per_operation s0 sA
    ((okFx (addEmployee s0 0 100 0 1 0)).getD Fx.none) 0 100 0 1 0).1 rfl

/-- C7. Code bug: generateComplianceReport does not aggregate the YTD values
of all active employees. In the reachable state `sAud` (active employees at
addresses 0 and 1 with YTD earnings 2 and 0, auditor at address 9), the
report grants the auditor an earnings aggregate of 4 — address 0 counted
once per loop index through the getEmployeeByIndex placeholder — while the
sum over the active employees is 2. -/
theorem report_aggregation_divergence :
    (okFxR (generateComplianceReport sAud 9 300)).map Fx.grants =
      some [(4, 9), (0, 9)] ∧
    isEmployee sAud 0 = true ∧ isEmployee sAud 1 = true ∧
    (sAud.employees 0).encryptedYTDEarnings = 2 ∧
    (sAud.employees 1).encryptedYTDEarnings = 0 ∧
    ytdSumOver sAud [0, 1] = 2 ∧
    (4 : Nat) ≠ 2 := by decide

/-- C5. Every mutating operation is role-gated and fails atomically: a
caller without PAYROLL_ADMIN_ROLE cannot addEmployee, processPayroll or
updateSalary; without EMPLOYER_ROLE cannot distributeBonus; without
AUDITOR_ROLE cannot generateComplianceReport; a non-manager cannot call any
of PayrollToken's payment functions. Each failure is the authorization
error of the missing role (an Except.error, i.e. a revert, so no state
change survives). Duplicate addEmployee fails with EmployeeAlreadyExists,
and updateSalary / distributeBonus on an inactive employee fail with
EmployeeNotFound. -/
theorem role_gate_complete (s : PayrollState) (ts : Token.TokenState)
    (sender now e x y : Nat) (emps grosses taxes : List Nat) :
    (s.hasRole Role.payrollAdmin sender = false →
      addEmployee s sender now e x y =
        Except.error (PayrollError.unauthorized Role.payrollAdmin sender) ∧
      processPayroll s sender now =
        Except.error (PayrollError.unauthorized Role.payrollAdmin sender) ∧
      updateSalary s sender e x =
        Except.error (PayrollError.unauthorized Role.payrollAdmin sender)) ∧
    (s.hasRole Role.employer sender = false →
      distributeBonus s sender now e x =
        Except.error (PayrollError.unauthorized Role.employer sender)) ∧
    (s.hasRole Role.auditor sender = false →
      generateComplianceReport s sender now =
        Except.error (PayrollError.unauthorized Role.auditor sender)) ∧
    (s.hasRole Role.payrollAdmin sender = true →
      (s.employees e).isActive = true →
      addEmployee s sender now e x y =
        Except.error PayrollError.employeeAlreadyExists) ∧
    (s.hasRole Role.payrollAdmin sender = true →
      (s.employees e).isActive = false →
      updateSalary s sender e x =
        Except.error PayrollError.employeeNotFound) ∧
    (s.hasRole Role.employer sender = true →
      (s.employees e).isActive = false →
      distributeBonus s sender now e x =
        Except.error PayrollError.employeeNotFound) ∧
    (ts.payrollManagers sender = false →
      Token.processPayrollPayment ts sender e x y =
        Except.error Token.TokenError.notPayrollManager ∧
      Token.batchProcessPayroll ts sender emps grosses taxes =
        Except.error Token.TokenError.notPayrollManager ∧
      Token.remitTaxWithholdings ts sender =
        Except.error Token.TokenError.notPayrollManager) := by
  refine ⟨?_, ?_, ?_, ?_, ?_, ?_, ?_⟩
  · intro h
    exact ⟨by simp [addEmployee, h], by simp [processPayroll, h],
      by simp [updateSalary, h]⟩
  · intro h
    simp [distributeBonus, h]
  · intro h
    simp [generateComplianceReport, h]
  · intro h ha
    simp [addEmployee, h, ha]
  · intro h ha
    simp [updateSalary, h, ha]
  · intro h ha
    simp [distributeBonus, h, ha]
  · intro h
    exact ⟨by simp [Token.processPayrollPayment, h],
      by simp [Token.batchProcessPayroll, h],
      by simp [Token.remitTaxWithholdings, h]⟩

/-- C5 witness: the role-gate theorem at concrete states — the active
employee at address 1 of `sB` (who holds no EMPLOYER_ROLE) is rejected from
distributeBonus with the Unauthorized error, a duplicate addEmployee for
address 1 is rejected, updateSalary on the unknown address 2 is rejected
with the not-found error, and the non-manager address 5 cannot call the
token's remitTaxWithholdings. -/
theorem role_gate_complete_witness :
    distributeBonus sB 1 300 1 5 =
      Except.error (PayrollError.unauthorized Role.employer 1) ∧
    addEmployee sB 0 300 1 1 0 =
      Except.error PayrollError.employeeAlreadyExists ∧
    updateSalary sB 0 2 5 = Except.error PayrollError.employeeNotFound ∧
    Token.remitTaxWithholdings ts1 5 =
      Except.error Token.TokenError.notPayrollManager := by
  have h1 := role_gate_complete sB ts1 1 300 1 5 0 [] [] []
  have h0 := role_gate_complete sB ts1 0 300 1 1 0 [] [] []
  have h2 := role_gate_complete sB ts1 0 300 2 5 0 [] [] []
  have h5 := role_gate_complete sB ts1 5 300 0 0 0 [] [] []
  exact ⟨h1.2.1 (by decide), h0.2.2.2.1 (by decide) (by decide),
    h2.2.2.2.2.1 (by decide) (by decide),
    (h5.2.2.2.2.2.2 (by decide)).2.2⟩

/-- C6. updateSalary by a PAYROLL_ADMIN caller on an active employee stores
the new encrypted salary, changes the encrypted total budget by exactly
newSalary - oldSalary modulo 2^64 (homomorphic subtract of the old salary
then add of the new), re-grants the employee (and the contract) decrypt
permission on the new salary ciphertext, touches no other employee record
and emits nothing; on an inactive or unknown employee it fails with
EmployeeNotFound. -/
theorem updateSalary_correct (s : PayrollState) (sender e newIn : Nat)
    (hrole : s.hasRole Role.payrollAdmin sender = true) :
    ((s.employees e).isActive = true →
      ∃ s' fx, updateSalary s sender e newIn = Except.ok (s', fx) ∧
        (s'.employees e).encryptedSalary = newIn % M64 ∧
        (s'.employees e).isActive = true ∧
        ((s'.config.encryptedTotalBudget : Int) =
          ((s.config.encryptedTotalBudget : Int) -
            ((s.employees e).encryptedSalary : Int) +
            ((newIn % M64 : Nat) : Int)) % (M64 : Int)) ∧
        fx.grants = [(newIn % M64, e)] ∧
        fx.grantsThis = [newIn % M64] ∧
        (∀ a, a ≠ e → s'.employees a = s.employees a) ∧
        s'.eventLog = s.eventLog ∧
        s'.totalEmployees = s.totalEmployees) ∧
    ((s.employees e).isActive = false →
      updateSalary s sender e newIn =
        Except.error PayrollError.employeeNotFound) := by
  constructor
  · intro ha
    refine ⟨{ s with
        employees := updEmp s.employees e
          { s.employees e with encryptedSalary := newIn % M64 }
        config := { s.config with encryptedTotalBudget :=
          (fheAdd (fheSub s.config.encryptedTotalBudget
            (s.employees e).encryptedSalary) (newIn % M64)) } },
      { grants := [(newIn % M64, e)], grantsThis := [newIn % M64],
        payWrites := [], payTransfers := [] },
      ?_, ?_, ?_, ?_, rfl, rfl, ?_, rfl, rfl⟩
    · simp [updateSalary, hrole, ha]
    · simp [updEmp]
    · simp [updEmp, ha]
    · simp only [fheAdd, fheSub, M64]
      push_cast
      omega
    · intro a hne
      simp [updEmp, hne]
  · intro ha
    simp [updateSalary, hrole, ha]

/-- C3 counterexample. The claim says the amount actually transferred equals
min(amount, available balance). In the concrete call
processPayrollPayment(employee 20, grossPay 100, taxAmount 30) by manager 10
holding balance 50, the encrypted check grossPay <= balance fails, the
select yields 0 and the employee balance stays 20 — while
min(netPay, balance) = min(70, 50) = 50. The transfer is all-or-nothing,
not min. -/
theorem select_not_min_counterexample :
    Token.okTr (Token.processPayrollPayment ts1 10 20 100 30) = some 0 ∧
    (Token.okTs (Token.processPayrollPayment ts1 10 20 100 30)).map
      (fun t => t.balances 20) = some 20 ∧
    Nat.min (fheSub 100 30) (ts1.balances 10) = 50 ∧
    ¬ Token.okTr (Token.processPayrollPayment ts1 10 20 100 30) =
        some (Nat.min (fheSub 100 30) (ts1.balances 10)) := by decide

/-- C3 amended. The transfer in PayrollToken.processPayrollPayment is gated
by the encrypted comparison grossPay <= balance(sender) combined with a
homomorphic select and never by a cleartext branch on the secret predicate;
the amount actually transferred is netPay = grossPay - taxAmount when the
comparison holds and 0 otherwise (all-or-nothing, not min(amount,
available)). Stated for non-wrapping inputs: taxAmount <= grossPay < 2^64
and balances small enough not to overflow. -/
theorem processPayrollPayment_all_or_nothing (ts : Token.TokenState)
    (sender employee gross tax : Nat)
    (hm : ts.payrollManagers sender = true)
    (hg : ts.acl sender gross = true)
    (ht : ts.acl sender tax = true)
    (hne : employee ≠ sender)
    (htg : tax ≤ gross) (hgm : gross < M64)
    (hbs : ts.balances sender < M64)
    (hbe : ts.balances employee + gross < M64) :
    Token.okTr (Token.processPayrollPayment ts sender employee gross tax) =
      some (if gross ≤ ts.balances sender then gross - tax else 0) ∧
    (Token.okTs (Token.processPayrollPayment ts sender employee gross
        tax)).map (fun t => t.balances employee) =
      some (ts.balances employee +
        (if gross ≤ ts.balances sender then gross - tax else 0)) ∧
    (Token.okTs (Token.processPayrollPayment ts sender employee gross
        tax)).map (fun t => t.balances sender) =
      some (ts.balances sender -
        (if gross ≤ ts.balances sender then gross - tax else 0)) := by
  have hgm2 : gross < 18446744073709551616 := hgm
  have hbs2 : ts.balances sender < 18446744073709551616 := hbs
  have hbe2 : ts.balances employee + gross < 18446744073709551616 := hbe
  have hns : sender ≠ employee := fun h => hne h.symm
  by_cases hle : gross ≤ ts.balances sender
  · have h1 : fheSub gross tax = gross - tax := by
      simp only [fheSub, M64]
      omega
    have h2 : gross - tax ≤ ts.balances sender := by omega
    simp only [Token.processPayrollPayment, hm, hg, ht, if_true,
      Token.tokenUpdate, Token.setBal, Token.okTr, Token.okTs, Option.map,
      fheSelect, fheLe, h1, decide_eq_true_eq, hle, if_true, h2, hne, hns,
      if_false, if_pos, Option.some.injEq]
    refine ⟨?_, ?_, ?_⟩
    · simp [hle]
    · simp only [eq_self_iff_true, if_true, hns, if_false, fheAdd, M64,
        hle]
      omega
    · simp only [eq_self_iff_true, if_true, hns, if_false, fheSub, M64,
        hle]
      omega
  · have h1 : fheSelect (fheLe gross (ts.balances sender))
        (fheSub gross tax) 0 = 0 := by
      simp [fheSelect, fheLe, hle]
    simp only [Token.processPayrollPayment, hm, hg, ht, if_true,
      Token.tokenUpdate, Token.setBal, Token.okTr, Token.okTs, Option.map,
      h1, fheSelect, fheLe, decide_eq_true_eq, hne, hns, if_false,
      Option.some.injEq]
    refine ⟨?_, ?_, ?_⟩
    · simp [hle]
    · simp only [eq_self_iff_true, if_true, hns, if_false, fheAdd,
        Nat.zero_le, fheSub, M64, hle]
      omega
    · simp only [eq_self_iff_true, if_true, hns, if_false, fheAdd,
        Nat.zero_le, fheSub, M64, hle]
      omega

/-- C3 witness: the amended theorem at the concrete call of the
counterexample state (whose balance check fails, so the selected amount is
zero). -/
theorem processPayrollPayment_all_or_nothing_witness :
    Token.okTr (Token.processPayrollPayment ts1 10 20 100 30) =
      some (if 100 ≤ ts1.balances 10 then 100 - 30 else 0) :=
  (processPayrollPayment_all_or_nothing ts1 10 20 100 30 (by decide)
    (by decide) (by decide) (by decide) (by decide) (by decide) (by decide)
    (by decide)).1

/-- C9. Every authorized processPayrollPayment call adds exactly taxAmount
(modulo 2^64) onto pendingWithholdings[taxAuthority], even when the
encrypted balance check grossPay <= balance(sender) is false and the
selected transfer amount is zero — so withholdings can accumulate without a
completed net-pay transfer backing them. -/
theorem withholdings_accumulate (ts : Token.TokenState)
    (sender employee gross tax : Nat)
    (hm : ts.payrollManagers sender = true)
    (hg : ts.acl sender gross = true)
    (ht : ts.acl sender tax = true) :
    ((Token.okTs (Token.processPayrollPayment ts sender employee gross
        tax)).map (fun t => t.pendingWithholdings ts.taxAuthority) =
      some ((ts.pendingWithholdings ts.taxAuthority + tax) % M64)) ∧
    (fheLe gross (ts.balances sender) = false →
      Token.okTr (Token.processPayrollPayment ts sender employee gross tax)
        = some 0) := by
  constructor
  · simp [Token.processPayrollPayment, hm, hg, ht, Token.okTs,
      Token.tokenUpdate, Token.setBal, fheAdd]
  · intro hle
    simp [Token.processPayrollPayment, hm, hg, ht, Token.okTr, hle,
      fheSelect]

/-- C9 witness: the theorem at the concrete call on `ts1` (taxAmount 30,
balance check false), where pending withholdings go from 0 to 30. -/
theorem withholdings_accumulate_witness :
    (Token.okTs (Token.processPayrollPayment ts1 10 20 100 30)).map
      (fun t => t.pendingWithholdings ts1.taxAuthority) =
      some ((ts1.pendingWithholdings ts1.taxAuthority + 30) % M64) :=
  (withholdings_accumulate ts1 10 20 100 30 (by decide) (by decide)
    (by decide)).1

/-- C6 witness: the theorem applied to updateSalary on `sA` (active employee
at address 0, old salary 1), replacing the salary by 5. -/
theorem updateSalary_correct_witness :
    ∃ s' fx, updateSalary sA 0 0 5 = Except.ok (s', fx) ∧
      (s'.employees 0).encryptedSalary = 5 % M64 := by
  obtain ⟨s', fx, h1, h2, _⟩ :=
    (updateSalary_correct sA 0 0 5 (by decide)).1 (by decide)
  exact ⟨s', fx, h1, h2⟩

/-- Helper for the activity invariant: one successful transaction never
clears an employee's active flag and never decreases totalEmployees. -/
theorem step_preserves (s s' : PayrollState) (h : Step s s') :
    (∀ a, (s.employees a).isActive = true →
      (s'.employees a).isActive = true) ∧
    s.totalEmployees ≤ s'.totalEmployees := by
  cases h with
  | add sender now e x y s2 fx h =>
    by_cases hr : s.hasRole Role.payrollAdmin sender
    · by_cases ha : (s.employees e).isActive
      · simp [addEmployee, hr, ha] at h
      · simp [addEmployee, hr, ha] at h
        obtain ⟨h1, _⟩ := h
        subst h1
        refine ⟨?_, by simp⟩
        intro a hact
        by_cases hae : a = e
        · subst hae
          simp [updEmp]
        · simp [updEmp, hae, hact]
    · simp [addEmployee, hr] at h
  | process sender now s2 fx h =>
    by_cases hr : s.hasRole Role.payrollAdmin sender
    · simp only [processPayroll, hr, if_true, Except.ok.injEq,
        Prod.mk.injEq] at h
      obtain ⟨h1, _⟩ := h
      subst h1
      have hf := foldl_payStep_frame now (List.range s.totalEmployees)
        ({ s with currentPayPeriod := s.currentPayPeriod + 1 }, Fx.none, 0)
      exact ⟨fun a hact => hf.2.2.2.2.2 a hact,
        le_of_eq hf.2.2.2.2.1.symm⟩
    · simp [processPayroll, hr] at h
  | bonus sender now e x s2 fx h =>
    by_cases hr : s.hasRole Role.employer sender
    · by_cases ha : (s.employees e).isActive
      · simp [distributeBonus, hr, ha] at h
        obtain ⟨h1, _⟩ := h
        subst h1
        refine ⟨?_, le_refl _⟩
        intro a hact
        by_cases hae : a = e
        · subst hae
          simp [updEmp, ha]
        · simp [updEmp, hae, hact]
      · simp [distributeBonus, hr, ha] at h
    · simp [distributeBonus, hr] at h
  | salary sender e x s2 fx h =>
    by_cases hr : s.hasRole Role.payrollAdmin sender
    · by_cases ha : (s.employees e).isActive
      · simp [updateSalary, hr, ha] at h
        obtain ⟨h1, _⟩ := h
        subst h1
        refine ⟨?_, le_refl _⟩
        intro a hact
        by_cases hae : a = e
        · subst hae
          simp [updEmp, ha]
        · simp [updEmp, hae, hact]
      · simp [updateSalary, hr, ha] at h
    · simp [updateSalary, hr] at h
  | report sender now s2 fx rh h =>
    by_cases hr : s.hasRole Role.auditor sender
    · simp [generateComplianceReport, hr] at h
      obtain ⟨h1, _⟩ := h
      subst h1
      exact ⟨fun a hact => hact, le_refl _⟩
    · simp [generateComplianceReport, hr] at h
  | roleGrant sender r account s2 h =>
    by_cases hr : s.hasRole Role.defaultAdmin sender
    · simp [grantRole, hr] at h
      subst h
      exact ⟨fun a hact => hact, le_refl _⟩
    · simp [grantRole, hr] at h
  | roleRevoke sender r account s2 h =>
    by_cases hr : s.hasRole Role.defaultAdmin sender
    · simp [revokeRole, hr] at h
      subst h
      exact ⟨fun a hact => hact, le_refl _⟩
    · simp [revokeRole, hr] at h

/-- C10. Once an address is an active employee, it stays active in every
reachable subsequent state: no operation of ConfidentialPayrollSystem clears
the isActive flag or removes an employee (the contract has no removeEmployee
or deactivation function), and totalEmployees is monotonically
non-decreasing — so isEmployee never transitions from true to false. -/
theorem employee_active_monotone (s s' : PayrollState)
    (h : Reachable s s') :
    (∀ a, isEmployee s a = true → isEmployee s' a = true) ∧
    s.totalEmployees ≤ s'.totalEmployees := by
  induction h with
  | refl => exact ⟨fun a ha => ha, le_refl _⟩
  | tail h1 h2 ih =>
    obtain ⟨f1, f2⟩ := ih
    obtain ⟨g1, g2⟩ := step_preserves _ _ h2
    exact ⟨fun a ha => g1 a (f1 a ha), f2.trans g2⟩

/-- C10 witness: the invariant along the concrete step from `sA` to `sB`
(the addEmployee call registering address 1): the active employee at
address 0 stays active and the head count does not drop. -/
theorem employee_active_monotone_witness :
    isEmployee sB 0 = true ∧ sA.totalEmployees ≤ sB.totalEmployees := by
  have h := employee_active_monotone sA sB
    (Relation.ReflTransGen.single
      (Step.add 0 100 1 1 0 sB
        ((okFx (addEmployee sA 0 100 1 1 0)).getD Fx.none) rfl))
  exact ⟨h.1 0 (by decide), h.2⟩

end Payroll
